import Mathlib

/-!
Shallow embedding of the survey-analysis pipeline of `main.py`:
a column normalizer (rename + required-field check), boilerplate-phrase
removal, enrollment-year extraction, the wide-to-long `melt` reshape with
`dropna`, the comma-split expansion of the availability/motivation fields,
the case-insensitive motivation denylist, and the count/percentage
aggregations.  Tables are lists of rows of cells; a cell is `none` for a
pandas missing value (`NaN`) or `some` of a string or rational value.
-/

namespace SurveyBI

/-- A scalar value held in a table cell.  Tables as ingested from the
spreadsheet hold `str` cells; `num` covers the derived numeric
`Ano Matrícula` column (modelled over `ℚ` rather than IEEE floats). -/
inductive Val where
  | str (s : String)
  | num (q : ℚ)
deriving DecidableEq, Repr

/-- A table cell: `none` is pandas `NaN` (missing). -/
abbrev Cell := Option Val

/-- A dataframe: a list of column names and a list of rows, each row a list
of cells aligned positionally with `cols`. -/
structure Table where
  cols : List String
  rows : List (List Cell)
deriving DecidableEq, Repr

/-- Rows all have exactly one cell per column (pandas tables are never
ragged). -/
def Table.Aligned (t : Table) : Prop :=
  ∀ r ∈ t.rows, r.length = t.cols.length

instance (t : Table) : Decidable t.Aligned := by
  unfold Table.Aligned; infer_instance

/-- `COLUNA_MAPPER` of `main.py`: the fixed mapping from the long form
question headers to the short canonical field names. -/
def COLUNA_MAPPER : List (String × String) := [
  ("Carimbo de data/hora", "Timestamp"),
  ("Endereço de e-mail", "Email"),
  ("Nome completo", "Nome"),
  ("Curso", "Curso"),
  ("Número de Matrícula", "Matricula"),
  ("1ª Prioridade: Qual disciplina você mais tem interesse em cursar nas férias?", "Prioridade 1"),
  ("2ª Prioridade: Qual seria a SEGUNDA disciplina você mais tem interesse em cursar nas férias?", "Prioridade 2"),
  ("3ª Prioridade: Qual seria a TERCEIRA disciplina você mais tem interesse em cursar nas férias?", "Prioridade 3"),
  ("No geral, quais turnos você teria disponibilidade para cursar disciplinas de férias de verão?", "Disponibilidade"),
  ("(1ª Disciplina) Algum dos casos baixo descreve seu interesse em cursar essa disciplina nas férias? Quais?", "Motivacao"),
  ("(2ª Disciplina) Algum dos casos baixo descreve seu interesse em cursar essa disciplina nas férias? Quais?", "Motivacao 2"),
  ("(3ª Disciplina) Algum dos casos baixo descreve seu interesse em cursar essa disciplina nas férias? Quais?", "Motivacao 3"),
  ("Qual o máximo de matérias que você gostaria de cursar durante o semestre de verão (2025.4)?", "Maximo Materias"),
  ("Há outros fatores que motiva seu interesse em cursar essas disciplinas nas férias? ", "Fatores Motivacao"),
  ("Seja sincero", "Sinceridade"),
  ("Por favor, consulte sua matriz curricular para garantir que você cumpre os pré-requisitos para cursar a disciplina!", "Check Pre-req"),
  ("Há mais alguma observação que gostaria de compartilhar?\nOpcional. Ex: \"não posso ter aulas em fevereiro\", \"troquei de matriz e agora tá bem complicado pois...\" , \"tenho preferencia pelo professor(a) tal, mas dependendo também poderia com tal\", \"não tenho preferencia por horário e professor, estou desesperado(a)!\".\n\nLembre-se: quanto menos restritivo e mais sincero, melhor.", "Observacoes")]

/-- `COLUNAS_ESSENCIAIS` of `main.py`: the required short field names. -/
def COLUNAS_ESSENCIAIS : List String :=
  ["Curso", "Disponibilidade", "Motivacao", "Matricula",
   "Prioridade 1", "Prioridade 2", "Prioridade 3"]

/-- What `df.rename(columns=COLUNA_MAPPER)` does to one column header:
replace it by its image under the mapping if the header is a key,
otherwise leave it unchanged. -/
def applyMapper (c : String) : String :=
  match COLUNA_MAPPER.find? (fun p => p.1 == c) with
  | some p => p.2
  | none => c

/-- `df_raw.rename(columns=COLUNA_MAPPER, errors=ignore)` (main.py line 50):
rename the mapped headers, keep everything else, rows untouched. -/
def Table.rename (t : Table) : Table :=
  ⟨t.cols.map applyMapper, t.rows⟩

/-- Column lookup by name: the cell at the first position whose column
name is `c`; `none` when the column is absent or the row is too short. -/
def getNamed (c : String) : List String → List Cell → Cell
  | c' :: cs, x :: xs => if c' = c then x else getNamed c cs xs
  | _, _ => none

/-- Apply `f` to every cell sitting under a column name satisfying `p`
(positional walk over the header list and the row together). -/
def mapNamed (p : String → Bool) (f : Cell → Cell) : List String → List Cell → List Cell
  | c :: cs, x :: xs => (if p c then f x else x) :: mapNamed p f cs xs
  | _, xs => xs

/-- The essential columns that are still missing after renaming
(main.py line 54). -/
def missingCols (t : Table) : List String :=
  COLUNAS_ESSENCIAIS.filter (fun c => decide (c ∉ t.cols))

/-- `frases_a_remover` of `main.py`: the boilerplate placeholder phrases
replaced by `NaN` in the three rank columns. -/
def frases_a_remover : List String :=
  ["NÃO TENHO UMA 1 DISCIPLINA DE INTERESSE",
   "NÃO TENHO UMA 2 DISCIPLINA DE INTERESSE",
   "NÃO TENHO UMA 3 DISCIPLINA DE INTERESSE"]

/-- The boilerplate phrases, as cells. -/
def phraseCells : List Cell := frases_a_remover.map (fun s => some (Val.str s))

/-- The three ranked-choice columns, in the fixed order of `main.py`
(both the `replace` loop of lines 66-68 and `value_vars` of the melt). -/
def valueVars : List String := ["Prioridade 1", "Prioridade 2", "Prioridade 3"]

/-- `df_raw[col].replace(frases_a_remover, np.nan)` applied to the three
rank columns (main.py lines 66-68). -/
def replaceFrases (t : Table) : Table :=
  ⟨t.cols,
   t.rows.map (fun r =>
     mapNamed (fun c => decide (c ∈ valueVars))
       (fun x => if x ∈ phraseCells then none else x) t.cols r)⟩

/-- The whitespace class of Python regex and `str.strip` (ASCII part). -/
def isPySpace (c : Char) : Bool :=
  c == ' ' || c == '\t' || c == '\n' || c == '\r' || c == '\x0b' || c == '\x0c'

/-- Python `str.strip()`: drop leading and trailing whitespace. -/
def pyStrip (s : String) : String :=
  String.mk (((s.data.dropWhile isPySpace).reverse.dropWhile isPySpace).reverse)

/-- Split a character list at every comma (keeping empty components). -/
def splitOnComma : List Char → List (List Char)
  | [] => [[]]
  | ',' :: rest => [] :: splitOnComma rest
  | c :: rest =>
    match splitOnComma rest with
    | [] => [[c]]
    | h :: t => (c :: h) :: t

/-- Python regex split on a comma followed by optional whitespace
(the `str.split` pattern of main.py lines 352 and 392): splitting at each
comma and then discarding the whitespace run that followed the comma. -/
def splitCommaWs (s : String) : List String :=
  match splitOnComma s.data with
  | [] => []
  | h :: t =>
    String.mk h :: t.map (fun u => String.mk (u.dropWhile isPySpace))

/-- Python `str.lower` restricted to the alphabet occurring in this
pipeline: ASCII letters plus the accented uppercase letters of the
Portuguese denylist strings. -/
def pyLowerChar (c : Char) : Char :=
  if c.isUpper then c.toLower
  else match c with
  | 'Á' => 'á' | 'Â' => 'â' | 'Ã' => 'ã' | 'À' => 'à'
  | 'Ç' => 'ç' | 'É' => 'é' | 'Ê' => 'ê' | 'Í' => 'í'
  | 'Ó' => 'ó' | 'Ô' => 'ô' | 'Õ' => 'õ' | 'Ú' => 'ú'
  | 'Ü' => 'ü' | _ => c

/-- Python `str.lower` on a whole string. -/
def pyLower (s : String) : String := String.mk (s.data.map pyLowerChar)

/-- Numeric value of a digit list (0 for the empty list). -/
def natOfDigits (cs : List Char) : ℕ :=
  cs.foldl (fun acc c => 10 * acc + (c.toNat - 48)) 0

/-- Parse an unsigned decimal numeral, with optional fraction part
(`2022`, `2.`, `.5`); `none` when the characters are not such a numeral. -/
def parseUnsigned (cs : List Char) : Option ℚ :=
  match cs.span (fun c => c.isDigit) with
  | (ds, []) => if ds.isEmpty then none else some ((natOfDigits ds : ℚ))
  | (ds, '.' :: fs) =>
    if fs.all (fun c => c.isDigit) && (!ds.isEmpty || !fs.isEmpty) then
      some ((natOfDigits ds : ℚ) + (natOfDigits fs : ℚ) / (10 ^ fs.length : ℚ))
    else none
  | _ => none

/-- `pd.to_numeric(·, errors=coerce)` on a short string, modelled over `ℚ`
for the decimal numerals (optional sign, optional fraction part) that a
four-character enrollment-id prefix can form; anything else coerces to
missing. -/
def pyToNumeric? (s : String) : Option ℚ :=
  match (pyStrip s).data with
  | '+' :: t => parseUnsigned t
  | '-' :: t => (parseUnsigned t).map (fun q => -q)
  | t => parseUnsigned t

/-- Python `str()` of a cell, as produced by `.astype(str)`: `NaN` prints
as `"nan"`; ingested cells are strings and print as themselves. -/
def pyStr (c : Cell) : String :=
  match c with
  | none => "nan"
  | some (Val.str s) => s
  | some (Val.num q) => toString q

/-- Lines 74-78 of `main.py` applied to one `Matricula` cell: take the
first four characters of `str(matricula)`, coerce to a number, and fill a
failed parse with `0`. -/
def anoOfCell (c : Cell) : ℚ :=
  ((pyToNumeric? ((pyStr c).take 4))).getD 0

/-- The derived `Ano Matrícula` cell of a row. -/
def anoCell (cols : List String) (r : List Cell) : Cell :=
  some (Val.num (anoOfCell (getNamed "Matricula" cols r)))

/-- `df_raw[Ano Matrícula] = ...` (main.py lines 74-78): overwrite the
column when it already exists, otherwise append it on the right. -/
def addAno (t : Table) : Table :=
  if "Ano Matrícula" ∈ t.cols then
    ⟨t.cols,
     t.rows.map (fun r =>
       mapNamed (fun c => decide (c = "Ano Matrícula"))
         (fun _ => anoCell t.cols r) t.cols r)⟩
  else
    ⟨t.cols ++ ["Ano Matrícula"],
     t.rows.map (fun r => r ++ [anoCell t.cols r])⟩

/-- `id_vars` of the melt (main.py line 88). -/
def idVars : List String :=
  ["Curso", "Disponibilidade", "Motivacao", "Matricula", "Ano Matrícula"]

/-- Column names of the melted table: the identity columns, then the rank
tag (`var_name=Prioridade`), then the choice (`value_name=Disciplina`). -/
def meltCols : List String := idVars ++ ["Prioridade", "Disciplina"]

/-- One output row of the melt: the identity cells copied from the input
row, the rank column name as tag, and that rank column's cell. -/
def meltRow (cols : List String) (v : String) (r : List Cell) : List Cell :=
  idVars.map (fun c => getNamed c cols r) ++ [some (Val.str v), getNamed v cols r]

/-- `pd.melt` as called on main.py lines 85-93: for each rank column in
the fixed order, one output row per input row. -/
def melt (t : Table) : Table :=
  ⟨meltCols, valueVars.flatMap (fun v => t.rows.map (meltRow t.cols v))⟩

/-- `df.dropna(subset=[c])`: keep the rows whose `c` cell is not missing. -/
def dropnaCol (t : Table) (c : String) : Table :=
  ⟨t.cols, t.rows.filter (fun r => (getNamed c t.cols r).isSome)⟩

/-- `process_data` of `main.py`: rename, check the essential columns
(reporting the missing ones and withholding processing on failure),
replace the boilerplate phrases, derive `Ano Matrícula`, melt the three
rank columns and drop the rows with a missing `Disciplina`.  Returns the
pair `(df_raw, df_consolidado)`. -/
def process_data (df : Table) : Except (List String) (Table × Table) :=
  let t := df.rename
  if missingCols t = [] then
    let t2 := addAno (replaceFrases t)
    Except.ok (t2, dropnaCol (melt t2) "Disciplina")
  else
    Except.error (missingCols t)

/-- The normalized wide table of `process_data`, or the empty table when
processing was withheld. -/
def procRaw (df : Table) : Table :=
  match process_data df with
  | Except.ok p => p.1
  | Except.error _ => ⟨[], []⟩

/-- The long-format table of `process_data`, or the empty table when
processing was withheld. -/
def procLong (df : Table) : Table :=
  match process_data df with
  | Except.ok p => p.2
  | Except.error _ => ⟨[], []⟩

/-- One row's contribution to `.str.split(...).explode(c)`: a string cell
splits into one row per component, a non-string scalar becomes a single
row whose `c` cell is `NaN` (pandas `.str` methods map non-strings to
`NaN`), and a missing cell stays a single unchanged row. -/
def explodeCell (cols : List String) (c : String) (r : List Cell) : List (List Cell) :=
  match getNamed c cols r with
  | some (Val.str s) =>
    (splitCommaWs s).map (fun lbl =>
      mapNamed (fun c0 => decide (c0 = c)) (fun _ => some (Val.str lbl)) cols r)
  | some (Val.num _) =>
    [mapNamed (fun c0 => decide (c0 = c)) (fun _ => none) cols r]
  | none => [r]

/-- `.assign(c=df[c].str.split(...)).explode(c)` over a whole table. -/
def explodeSplitCol (t : Table) (c : String) : Table :=
  ⟨t.cols, t.rows.flatMap (explodeCell t.cols c)⟩

/-- `.str.strip()` on one cell: strings are stripped, anything not a
string becomes `NaN`. -/
def stripVal : Cell → Cell
  | some (Val.str s) => some (Val.str (pyStrip s))
  | _ => none

/-- `df[c] = df[c].str.strip()` over a whole table. -/
def stripCol (t : Table) (c : String) : Table :=
  ⟨t.cols, t.rows.map (mapNamed (fun c0 => decide (c0 = c)) stripVal t.cols)⟩

/-- `df_disponibilidade` (main.py lines 352-353): drop the rows with a
missing availability field, split it on comma-plus-whitespace, explode,
and strip each component. -/
def df_disponibilidade (dt : Table) : Table :=
  stripCol (explodeSplitCol (dropnaCol dt "Disponibilidade") "Disponibilidade") "Disponibilidade"

/-- `df_motivacao` (main.py lines 392-393): the same expansion applied to
the motivation field. -/
def df_motivacao (dt : Table) : Table :=
  stripCol (explodeSplitCol (dropnaCol dt "Motivacao") "Motivacao") "Motivacao"

/-- `motivos_excluir` of `main.py`: the denylist of generic motivation
answers, matched case-insensitively. -/
def motivos_excluir : List String :=
  ["outros", "outro", "não tenho interesse",
   "há outros fatores que motiva seu interesse em cursar essas disciplinas nas férias? há mais alguma observação que gostaria de compartilhar?",
   "opcional. ex: \"não posso ter aulas em fevereiro\", \"troquei de matriz e agora tá bem complicado pois...\" , \"tenho preferencia pelo professor(a) tal, mas dependendo também poderia com tal\", \"não tenho preferencia por horário e professor, estou desesperado(a)!\".",
   "seja sincero"]

/-- Is a motivation cell a denylisted string?  (`.str.lower().isin(...)`:
a non-string or missing cell lowers to `NaN`, and `NaN.isin` is false.) -/
def denylisted : Cell → Bool
  | some (Val.str s) => decide (pyLower s ∈ motivos_excluir)
  | _ => false

/-- `df_motivacao_filtrada` (main.py line 403): keep the rows whose
motivation value is not denylisted. -/
def df_motivacao_filtrada (dt : Table) : Table :=
  let t := df_motivacao dt
  ⟨t.cols, t.rows.filter (fun r => !(denylisted (getNamed "Motivacao" t.cols r)))⟩

/-- The non-missing values of a column, in row order (what `value_counts`
counts: pandas drops `NaN` before counting). -/
def colValues (t : Table) (c : String) : List Val :=
  t.rows.filterMap (fun r => getNamed c t.cols r)

/-- `value_counts()` and `value_counts(normalize=True).mul(100)` combined
(main.py lines 356-360 and 406-410): for each distinct value of the
column, its absolute count and its percentage of the counted values. -/
def contagem (t : Table) (c : String) : List (Val × ℕ × ℚ) :=
  let vs := colValues t c
  vs.dedup.map (fun v => (v, vs.count v, 100 * (vs.count v : ℚ) / (vs.length : ℚ)))

/-- `contagem_disponibilidade` (main.py lines 356-360). -/
def contagem_disponibilidade (dt : Table) : List (Val × ℕ × ℚ) :=
  contagem (df_disponibilidade dt) "Disponibilidade"

/-- `contagem_motivacao` (main.py lines 406-410). -/
def contagem_motivacao (dt : Table) : List (Val × ℕ × ℚ) :=
  contagem (df_motivacao_filtrada dt) "Motivacao"

/-- Is a value different from the number 0?  (Python `a != 0`: true for
every string, and for a number exactly when it is nonzero.) -/
def vNe0 : Val → Bool
  | Val.str _ => true
  | Val.num q => decide (q ≠ 0)

/-- The year filter options (main.py line 173): the distinct values of
`Ano Matrícula` with the invalid year 0 removed (their string formatting
and sort order are presentation and not modelled). -/
def anos_matricula_disponiveis (raw : Table) : List Val :=
  (colValues raw "Ano Matrícula").dedup.filter vNe0

/-- The distinct non-missing `Matricula` values of the rows of `dt` whose
`Ano Matrícula` equals `a`, counted by `nunique`. -/
def nuniqueMatricula (dt : Table) (a : Val) : ℕ :=
  ((dt.rows.filterMap (fun r =>
    if getNamed "Ano Matrícula" dt.cols r = some a
    then getNamed "Matricula" dt.cols r else none)).dedup).length

/-- `demanda_por_ano` (main.py lines 298-300): unique students per
enrollment year, with the invalid year 0 removed (display sorting and
integer formatting are presentation and not modelled). -/
def demanda_por_ano (dt : Table) : List (Val × ℕ) :=
  ((colValues dt "Ano Matrícula").dedup.map (fun a => (a, nuniqueMatricula dt a))).filter
    (fun p => vNe0 p.1)

/-- Modelled from the spec: a cell holding a non-empty value — the notion
the row-count property of §8 counts ("the number of non-empty values
across the three rank columns").  A missing cell and an empty string are
both not non-empty. -/
def nonEmptyCell : Cell → Bool
  | some (Val.str s) => decide (s ≠ "")
  | some (Val.num _) => true
  | none => false

/-- A concrete valid raw table (already-canonical headers, which the
renamer leaves in place): two respondents with ranked choices,
availability and motivation fields. -/
def dfW : Table :=
  ⟨["Curso", "Disponibilidade", "Motivacao", "Matricula",
    "Prioridade 1", "Prioridade 2", "Prioridade 3"],
   [[some (Val.str "BCC"), some (Val.str "Manhã, Tarde"),
     some (Val.str "Outros, quero adiantar"), some (Val.str "202201234"),
     some (Val.str "Calculus"), some (Val.str "Physics"), none],
    [some (Val.str "BSI"), some (Val.str "Noite"), none,
     some (Val.str "202109999"),
     some (Val.str "Physics"),
     some (Val.str "NÃO TENHO UMA 2 DISCIPLINA DE INTERESSE"), none]]⟩

/-- The long-format table derived from `dfW`, used as a concrete
detail-filtered table. -/
def dtW : Table := procLong dfW

/-- The first row of the long-format table of `dfW`. -/
def rowW : List Cell :=
  [some (Val.str "BCC"), some (Val.str "Manhã, Tarde"),
   some (Val.str "Outros, quero adiantar"), some (Val.str "202201234"),
   some (Val.num 2022), some (Val.str "Prioridade 1"),
   some (Val.str "Calculus")]

/-- A raw table with only the course column: every other essential field
is missing after renaming. -/
def dfERR : Table := ⟨["Curso"], []⟩

/-- A valid raw table whose single respondent typed an empty string (not
a missing value) as the first-rank choice. -/
def df1cx : Table :=
  ⟨["Curso", "Disponibilidade", "Motivacao", "Matricula",
    "Prioridade 1", "Prioridade 2", "Prioridade 3"],
   [[none, none, none, none, some (Val.str ""), none, none]]⟩

/-- A detail table whose single row carries an empty-string (not missing)
availability field. -/
def dtCX : Table := ⟨["Disponibilidade"], [[some (Val.str "")]]⟩

end SurveyBI

namespace SurveyBI

theorem length_mapNamed (p : String → Bool) (f : Cell → Cell) :
    ∀ (cols : List String) (r : List Cell), (mapNamed p f cols r).length = r.length
  | [], _ => rfl
  | _ :: _, [] => rfl
  | _ :: cs, _ :: xs => by
    simp only [mapNamed, List.length_cons, length_mapNamed p f cs xs]

theorem getNamed_mapNamed_not {c : String} {p : String → Bool}
    (f : Cell → Cell) (hp : p c = false) :
    ∀ (cols : List String) (r : List Cell),
    getNamed c cols (mapNamed p f cols r) = getNamed c cols r
  | [], _ => rfl
  | _ :: _, [] => rfl
  | c' :: cs, x :: xs => by
    by_cases h : c' = c
    · subst h
      simp only [mapNamed, getNamed, hp, if_true, if_false, Bool.false_eq_true]
    · simp only [mapNamed, getNamed, if_neg h,
        getNamed_mapNamed_not f hp cs xs]

theorem pred_getNamed_mapNamed {c : String} {p : String → Bool}
    {f : Cell → Cell} (Q : Cell → Prop) (hp : p c = true)
    (hf : ∀ x, Q (f x)) (hn : Q none) :
    ∀ (cols : List String) (r : List Cell),
    Q (getNamed c cols (mapNamed p f cols r))
  | [], _ => hn
  | _ :: _, [] => hn
  | c' :: cs, x :: xs => by
    by_cases h : c' = c
    · subst h
      simpa only [mapNamed, getNamed, hp, if_pos rfl, if_true] using hf x
    · simpa only [mapNamed, getNamed, if_neg h]
        using pred_getNamed_mapNamed Q hp hf hn cs xs

theorem getNamed_set_aligned {c : String} (v : Cell) :
    ∀ (cols : List String) (r : List Cell),
    r.length = cols.length → c ∈ cols →
    getNamed c cols (mapNamed (fun x => decide (x = c)) (fun _ => v) cols r) = v
  | [], _, _, hc => absurd hc (List.not_mem_nil c)
  | _ :: _, [], hl, _ => by simp at hl
  | c' :: cs, x :: xs, hl, hc => by
    by_cases h : c' = c
    · subst h
      simp only [mapNamed, getNamed, decide_eq_true_eq, if_pos rfl, if_true]
    · have hc' : c ∈ cs := by
        rcases List.mem_cons.mp hc with h1 | h1
        · exact absurd h1.symm h
        · exact h1
      have hl' : xs.length = cs.length := by simpa using hl
      simp only [mapNamed, getNamed, if_neg h,
        getNamed_set_aligned v cs xs hl' hc']

theorem getNamed_append_of_mem {c : String} (cols2 : List String) (r2 : List Cell) :
    ∀ (cols : List String) (r : List Cell),
    r.length = cols.length → c ∈ cols →
    getNamed c (cols ++ cols2) (r ++ r2) = getNamed c cols r
  | [], _, _, hc => absurd hc (List.not_mem_nil c)
  | _ :: _, [], hl, _ => by simp at hl
  | c' :: cs, x :: xs, hl, hc => by
    by_cases h : c' = c
    · simp only [List.cons_append, getNamed, if_pos h]
    · have hc' : c ∈ cs := by
        rcases List.mem_cons.mp hc with h1 | h1
        · exact absurd h1.symm h
        · exact h1
      have hl' : xs.length = cs.length := by simpa using hl
      rw [List.cons_append, List.cons_append]
      simp only [getNamed, if_neg h]
      exact getNamed_append_of_mem cols2 r2 cs xs hl' hc'

theorem getNamed_append_of_not_mem {c : String} (cols2 : List String) (r2 : List Cell) :
    ∀ (cols : List String) (r : List Cell),
    r.length = cols.length → c ∉ cols →
    getNamed c (cols ++ cols2) (r ++ r2) = getNamed c cols2 r2
  | [], [], _, _ => by simp
  | [], _ :: _, hl, _ => by simp at hl
  | _ :: _, [], hl, _ => by simp at hl
  | c' :: cs, x :: xs, hl, hc => by
    have h : c' ≠ c := fun h => hc (h ▸ List.mem_cons_self c' cs)
    have hc' : c ∉ cs := fun h1 => hc (List.mem_cons_of_mem c' h1)
    have hl' : xs.length = cs.length := by simpa using hl
    rw [List.cons_append, List.cons_append]
    simp only [getNamed, if_neg h]
    exact getNamed_append_of_not_mem cols2 r2 cs xs hl' hc'

theorem mapNamed_mapNamed (p : String → Bool) (f g : Cell → Cell) :
    ∀ (cols : List String) (r : List Cell),
    mapNamed p f cols (mapNamed p g cols r) = mapNamed p (fun x => f (g x)) cols r
  | [], _ => rfl
  | _ :: _, [] => rfl
  | c' :: cs, x :: xs => by
    by_cases h : p c'
    · simp only [mapNamed, h, if_true, mapNamed_mapNamed p f g cs xs]
    · simp only [mapNamed, h, if_false, Bool.false_eq_true,
        mapNamed_mapNamed p f g cs xs]

theorem pred_getNamed_append_single {c a : String} (hca : c ≠ a) (w : Cell)
    (Q : Cell → Prop) (hw : Q w) (hn : Q none) :
    ∀ (cols : List String) (r : List Cell),
    Q (getNamed c cols r) → Q (getNamed c (cols ++ [a]) (r ++ [w]))
  | [], [], _ => by
    simpa only [List.nil_append, getNamed, if_neg (Ne.symm hca)] using hn
  | [], x :: xs, _ => by
    have h1 : getNamed c ([] ++ [a]) ((x :: xs) ++ [w]) = none := by
      simp only [List.nil_append, List.cons_append, getNamed,
        if_neg (Ne.symm hca)]
    rw [h1]; exact hn
  | c' :: cs, [], _ => by
    by_cases h : c' = c
    · simpa only [List.cons_append, List.nil_append, getNamed, if_pos h] using hw
    · have h1 : getNamed c ((c' :: cs) ++ [a]) ([] ++ [w]) = none := by
        simp only [List.cons_append, List.nil_append, getNamed, if_neg h]
        cases cs <;> rfl
      rw [h1]; exact hn
  | c' :: cs, x :: xs, hq => by
    by_cases h : c' = c
    · have hx : Q x := by simpa only [getNamed, if_pos h] using hq
      simpa only [List.cons_append, getNamed, if_pos h] using hx
    · simp only [List.cons_append, getNamed, if_neg h]
      exact pred_getNamed_append_single hca w Q hw hn cs xs
        (by simpa only [getNamed, if_neg h] using hq)

theorem flatMap_filter {α β : Type} (p : α → Bool) (f : α → List β) :
    ∀ l : List α,
    (l.filter p).flatMap f = l.flatMap (fun x => if p x then f x else [])
  | [] => rfl
  | x :: xs => by
    by_cases h : p x
    · simp only [List.filter_cons, h, if_true, List.flatMap_cons,
        flatMap_filter p f xs]
    · simp only [List.filter_cons, h, if_false, Bool.false_eq_true,
        List.flatMap_cons, flatMap_filter p f xs]
      simp

theorem length_filterMap_of_isSome {α β : Type} (f : α → Option β) :
    ∀ l : List α, (∀ x ∈ l, (f x).isSome) →
    (l.filterMap f).length = l.length
  | [], _ => rfl
  | x :: xs, h => by
    obtain ⟨y, hy⟩ := Option.isSome_iff_exists.mp (h x (List.mem_cons_self x xs))
    simp only [List.filterMap_cons, hy, List.length_cons,
      length_filterMap_of_isSome f xs (fun a ha => h a (List.mem_cons_of_mem x ha))]

end SurveyBI

namespace SurveyBI

theorem process_data_ok {df raw long : Table}
    (h : process_data df = Except.ok (raw, long)) :
    missingCols df.rename = [] ∧
    raw = addAno (replaceFrases df.rename) ∧
    long = dropnaCol (melt raw) "Disciplina" := by
  unfold process_data at h
  by_cases hm : missingCols df.rename = []
  · rw [if_pos hm] at h
    injection h with h1
    rw [Prod.mk.injEq] at h1
    exact ⟨hm, h1.1.symm, by rw [← h1.1]; exact h1.2.symm⟩
  · rw [if_neg hm] at h
    exact absurd h (by simp)

theorem getNamed_disciplina_meltRow (cols : List String) (v : String) (r : List Cell) :
    getNamed "Disciplina" meltCols (meltRow cols v r) = getNamed v cols r := by
  simp only [meltRow, meltCols, idVars, List.map_cons, List.map_nil,
    List.cons_append, List.nil_append]
  simp +decide [getNamed]

/-- C6: the long-format reshape processes the three rank columns in the
fixed order, emits one output row per input row per rank column (the
identity columns copied, the rank column name as tag, that rank's cell as
value), and orders the output as the rank-1 block, then the rank-2 block,
then the rank-3 block, preserving input row order inside each block. -/
theorem c6_melt_order (t : Table) :
    (melt t).rows.length = 3 * t.rows.length ∧
    ∀ k i : ℕ, k < 3 → i < t.rows.length →
      (melt t).rows[k * t.rows.length + i]? =
        (t.rows[i]?).map (fun r =>
          idVars.map (fun c => getNamed c t.cols r) ++
            [some (Val.str (valueVars.getD k "")),
             getNamed (valueVars.getD k "") t.cols r]) := by
  have hrows : (melt t).rows =
      t.rows.map (meltRow t.cols "Prioridade 1") ++
      (t.rows.map (meltRow t.cols "Prioridade 2") ++
       t.rows.map (meltRow t.cols "Prioridade 3")) := by
    simp [melt, valueVars]
  constructor
  · rw [hrows]; simp; ring
  · intro k i hk hi
    interval_cases k
    · rw [hrows]
      rw [List.getElem?_append_left (by simpa using hi)]
      simp only [Nat.zero_mul, Nat.zero_add, List.getElem?_map]
      rfl
    · rw [hrows]
      rw [List.getElem?_append_right (by simp), List.length_map]
      rw [List.getElem?_append_left (by simpa using (by omega : 1 * t.rows.length + i - t.rows.length < t.rows.length))]
      have hidx : 1 * t.rows.length + i - t.rows.length = i := by omega
      rw [hidx, List.getElem?_map]
      rfl
    · rw [hrows]
      rw [List.getElem?_append_right (by simp; omega), List.length_map]
      rw [List.getElem?_append_right (by simp; omega), List.length_map]
      have hidx : 2 * t.rows.length + i - t.rows.length - t.rows.length = i := by
        omega
      rw [hidx, List.getElem?_map]
      rfl

/-- C6 witness at a concrete table: the second output block starts with
the rank-2 reshape of the first input row. -/
theorem c6_melt_order_witness :
    (melt dfW).rows[1 * dfW.rows.length + 0]? =
      (dfW.rows[0]?).map (fun r =>
        idVars.map (fun c => getNamed c dfW.cols r) ++
          [some (Val.str (valueVars.getD 1 "")),
           getNamed (valueVars.getD 1 "") dfW.cols r]) :=
  (c6_melt_order dfW).2 1 0 (by decide) (by decide)

/-- C1 (amended): for a valid raw table the long-format table has exactly
one row per non-missing (non-`NaN`) value in the three rank columns of the
normalized table; rows with a missing choice are discarded. -/
theorem c1_long_row_count (df raw long : Table)
    (h : process_data df = Except.ok (raw, long)) :
    long.rows.length =
      (valueVars.map (fun v =>
        raw.rows.countP (fun r => (getNamed v raw.cols r).isSome))).sum := by
  obtain ⟨hm, hraw, hlong⟩ := process_data_ok h
  subst hlong
  simp only [dropnaCol, melt]
  rw [List.filter_flatMap, List.length_flatMap]
  refine congrArg List.sum (List.map_congr_left ?_)
  intro v hv
  simp only [Function.comp]
  rw [← List.countP_eq_length_filter, List.countP_map]
  refine congrArg₂ List.countP ?_ rfl
  funext r
  simp only [Function.comp]
  rw [getNamed_disciplina_meltRow]

/-- C1 witness: on the concrete table `dfW` the long table has 3 rows,
the number of non-missing rank cells of the normalized table. -/
theorem c1_long_row_count_witness :
    (procLong dfW).rows.length =
      (valueVars.map (fun v =>
        (procRaw dfW).rows.countP
          (fun r => (getNamed v (procRaw dfW).cols r).isSome))).sum :=
  c1_long_row_count dfW (procRaw dfW) (procLong dfW) (by rfl)

end SurveyBI

namespace SurveyBI

/-- C1 counterexample: in `df1cx` the only rank value is the empty string
(an "empty" choice but not a missing one).  The table is valid, the long
table keeps that row (1 row), yet the number of non-empty rank values is
0 — so the row count does not equal the non-empty count and a row with an
empty choice value is not discarded. -/
theorem c1_empty_string_kept :
    (process_data df1cx).isOk = true ∧
    (procLong df1cx).rows.length = 1 ∧
    (valueVars.map (fun v =>
      (procRaw df1cx).rows.countP
        (fun r => nonEmptyCell (getNamed v (procRaw df1cx).cols r)))).sum = 0 := by
  decide

/-- C2 (amended): the availability expansion splits a string field on a
comma plus optional whitespace, trims each component, and emits one row
per (row, label) pair; a row with a missing field contributes zero rows.
(A row whose field is the empty string contributes one row carrying the
empty label, and a non-string field one row with a missing label.) -/
theorem c2_expand_characterization (dt : Table) :
    (df_disponibilidade dt).rows = dt.rows.flatMap (fun r =>
      match getNamed "Disponibilidade" dt.cols r with
      | none => []
      | some (Val.str s) => (splitCommaWs s).map (fun lbl =>
          mapNamed (fun c0 => decide (c0 = "Disponibilidade"))
            (fun _ => some (Val.str (pyStrip lbl))) dt.cols r)
      | some (Val.num _) => [mapNamed (fun c0 => decide (c0 = "Disponibilidade"))
            (fun _ => (none : Cell)) dt.cols r]) := by
  simp only [df_disponibilidade, stripCol, explodeSplitCol, dropnaCol]
  rw [List.map_flatMap, flatMap_filter]
  refine congrArg _ (funext ?_)
  intro r
  cases hg : getNamed "Disponibilidade" dt.cols r with
  | none => simp [explodeCell, hg]
  | some v =>
    cases v with
    | str s =>
      simp only [explodeCell, hg, Option.isSome_some, if_true, List.map_map]
      refine congrArg₂ List.map (funext ?_) rfl
      intro lbl
      simp only [Function.comp]
      rw [mapNamed_mapNamed]
      simp only [stripVal]
    | num q =>
      simp only [explodeCell, hg, Option.isSome_some, if_true, List.map_cons,
        List.map_nil]
      rw [mapNamed_mapNamed]
      simp only [stripVal]

/-- C2 counterexample: the detail table `dtCX` has one row whose packed
availability field is the empty string (empty, not missing); expansion
emits one row for it, and that row carries an empty label. -/
theorem c2_empty_field_row :
    (df_disponibilidade dtCX).rows.length = 1 ∧
    getNamed "Disponibilidade" (df_disponibilidade dtCX).cols
      ((df_disponibilidade dtCX).rows.getD 0 []) = some (Val.str "") := by
  decide

/-- C5: when an essential column is still absent after renaming, the
pipeline reports exactly the list of essential columns that are missing
and returns an error instead of any table pair; the reported list holds a
column name exactly when it is required and absent. -/
theorem c5_missing_columns_error (df : Table)
    (h : missingCols df.rename ≠ []) :
    process_data df = Except.error (missingCols df.rename) ∧
    ∀ c : String, c ∈ missingCols df.rename ↔
      (c ∈ COLUNAS_ESSENCIAIS ∧ c ∉ df.rename.cols) := by
  constructor
  · unfold process_data; rw [if_neg h]
  · intro c; simp [missingCols, List.mem_filter]

/-- C5 witness: a table with only the course column is rejected with the
six other essential columns reported as missing. -/
theorem c5_missing_columns_error_witness :
    process_data dfERR = Except.error
      ["Disponibilidade", "Motivacao", "Matricula",
       "Prioridade 1", "Prioridade 2", "Prioridade 3"] :=
  ((c5_missing_columns_error dfERR (by decide)).1).trans (by rfl)

set_option maxRecDepth 8192 in
/-- C7: the normalizer renames exactly the headers that are keys of the
fixed mapping, leaves every unmapped header (and all rows) unchanged
without error, and its validity check holds exactly when every required
field is among the resulting columns. -/
theorem c7_rename_semantics (t : Table) :
    t.rename.rows = t.rows ∧
    t.rename.cols = t.cols.map applyMapper ∧
    (∀ c v : String, (c, v) ∈ COLUNA_MAPPER → applyMapper c = v) ∧
    (∀ c : String, c ∉ COLUNA_MAPPER.map Prod.fst → applyMapper c = c) ∧
    (missingCols t.rename = [] ↔ ∀ e ∈ COLUNAS_ESSENCIAIS, e ∈ t.rename.cols) := by
  refine ⟨rfl, rfl, ?_, ?_, ?_⟩
  · intro c v h
    fin_cases h <;> rfl
  · intro c h
    have hf : COLUNA_MAPPER.find? (fun p => p.1 == c) = none := by
      rw [List.find?_eq_none]
      intro p hp
      simp only [beq_iff_eq]
      intro hpc
      exact h (hpc ▸ List.mem_map_of_mem Prod.fst hp)
    unfold applyMapper
    rw [hf]
  · simp [missingCols, List.filter_eq_nil_iff]

/-- C7 witness: a mapped header is renamed, an unmapped one kept. -/
theorem c7_rename_semantics_witness :
    applyMapper "Seja sincero" = "Sinceridade" ∧ applyMapper "Foo" = "Foo" :=
  ⟨(c7_rename_semantics dfERR).2.2.1 "Seja sincero" "Sinceridade" (by decide),
   (c7_rename_semantics dfERR).2.2.2.1 "Foo" (by decide)⟩

/-- C8: the normalization-plus-transformation pipeline is a deterministic
function of its input: identical raw tables yield identical outputs. -/
theorem c8_deterministic (d1 d2 : Table) (h : d1 = d2) :
    process_data d1 = process_data d2 := by rw [h]

/-- C8 witness at the concrete table `dfW`. -/
theorem c8_deterministic_witness :
    process_data dfW = process_data dfW :=
  c8_deterministic dfW dfW rfl

end SurveyBI

namespace SurveyBI

/-- C4: in any aggregation over a table whose aggregated column has no
missing value (as the expanded availability/motivation tables of the
pipeline do), each group's percentage is `100 * group_count / total_count`
with `total_count` the row count of the aggregated (filtered) table, and
the percentages of a non-empty result sum to 100. -/
theorem c4_percentages (t : Table) (c : String)
    (hall : ∀ r ∈ t.rows, (getNamed c t.cols r).isSome = true) :
    (∀ e ∈ contagem t c, e.2.2 = 100 * (e.2.1 : ℚ) / (t.rows.length : ℚ)) ∧
    (t.rows ≠ [] → ((contagem t c).map (fun e => e.2.2)).sum = 100) := by
  have hlen : (colValues t c).length = t.rows.length :=
    length_filterMap_of_isSome _ t.rows hall
  constructor
  · intro e he
    simp only [contagem, List.mem_map] at he
    obtain ⟨v, hv, rfl⟩ := he
    simp only
    rw [hlen]
  · intro hne
    have hT : ((t.rows.length : ℚ)) ≠ 0 :=
      Nat.cast_ne_zero.mpr (List.length_pos.mpr hne).ne'
    simp only [contagem, List.map_map]
    have hmap : ((colValues t c).dedup.map
        ((fun e : Val × ℕ × ℚ => e.2.2) ∘ (fun v =>
          (v, (colValues t c).count v,
           100 * ((colValues t c).count v : ℚ) / ((colValues t c).length : ℚ))))) =
        (colValues t c).dedup.map
          (fun v => (100 / ((t.rows.length : ℚ))) * ((colValues t c).count v : ℚ)) := by
      refine List.map_congr_left ?_
      intro v _
      simp only [Function.comp]
      rw [hlen]; ring
    rw [hmap, List.sum_map_mul_left]
    have hcast : ((colValues t c).dedup.map
        (fun v => ((colValues t c).count v : ℚ))) =
        (((colValues t c).dedup.map
          (fun v => (colValues t c).count v)).map (Nat.cast)) := by
      rw [List.map_map]; rfl
    rw [hcast, ← Nat.cast_list_sum, List.sum_map_count_dedup_eq_length, hlen,
      div_mul_cancel₀ _ hT]

/-- C4 witness: on the expanded availability table of `dtW` the
percentages sum to 100. -/
theorem c4_percentages_witness :
    ((contagem (df_disponibilidade dtW) "Disponibilidade").map
      (fun e => e.2.2)).sum = 100 :=
  (c4_percentages (df_disponibilidade dtW) "Disponibilidade" (by decide)).2
    (by decide)

/-- C3: a motivation value whose lowercase form is denylisted never
appears in the motivation aggregate, and when every expanded motivation
string is denylisted the aggregate is the empty list (not an error). -/
theorem c3_denylist_excluded (dt : Table) (s : String)
    (hs : pyLower s ∈ motivos_excluir) :
    Val.str s ∉ (contagem_motivacao dt).map (fun e => e.1) ∧
    ((∀ r ∈ (df_motivacao dt).rows, ∀ u : String,
        getNamed "Motivacao" (df_motivacao dt).cols r = some (Val.str u) →
        pyLower u ∈ motivos_excluir) →
      contagem_motivacao dt = []) := by
  constructor
  · intro hmem
    simp only [contagem_motivacao, contagem, List.map_map, List.mem_map] at hmem
    obtain ⟨v, hv, hveq⟩ := hmem
    have hv' : v = Val.str s := hveq
    subst hv'
    rw [List.mem_dedup] at hv
    simp only [colValues, df_motivacao_filtrada, List.mem_filterMap,
      List.mem_filter] at hv
    obtain ⟨r, ⟨-, hkeep⟩, hget⟩ := hv
    rw [hget] at hkeep
    simp [denylisted, hs] at hkeep
  · intro hall
    have hvals : colValues (df_motivacao_filtrada dt) "Motivacao" = [] := by
      rw [List.eq_nil_iff_forall_not_mem]
      intro v hv
      simp only [colValues, df_motivacao_filtrada, List.mem_filterMap,
        List.mem_filter] at hv
      obtain ⟨r, ⟨hrm, hkeep⟩, hget⟩ := hv
      cases v with
      | str u =>
        have hu : pyLower u ∈ motivos_excluir := hall r hrm u hget
        rw [hget] at hkeep
        simp [denylisted, hu] at hkeep
      | num q =>
        simp only [df_motivacao, stripCol, explodeSplitCol, dropnaCol,
          List.mem_map] at hrm
        obtain ⟨r0, hr0, rfl⟩ := hrm
        have hQ := pred_getNamed_mapNamed
          (c := "Motivacao") (p := fun c0 => decide (c0 = "Motivacao"))
          (f := stripVal) (fun x => x ≠ some (Val.num q)) (by simp)
          (by intro x
              cases x with
              | none => simp [stripVal]
              | some w => cases w <;> simp [stripVal])
          (by simp) dt.cols r0
        exact hQ hget
    simp only [contagem_motivacao, contagem, hvals, List.dedup_nil,
      List.map_nil]

/-- C3 witness: the value `Outros` (denylisted as `outros`) is absent from
the concrete motivation aggregate of `dtW`. -/
theorem c3_denylist_excluded_witness :
    Val.str "Outros" ∉ (contagem_motivacao dtW).map (fun e => e.1) :=
  (c3_denylist_excluded dtW "Outros" (by decide)).1

end SurveyBI

namespace SurveyBI

theorem getNamed_replace_of_phrase {v : String}
    (hvp : decide (v ∈ valueVars) = true) :
    ∀ (cols : List String) (r : List Cell),
    getNamed v cols r ∈ phraseCells →
    getNamed v cols (mapNamed (fun c => decide (c ∈ valueVars))
      (fun x => if x ∈ phraseCells then none else x) cols r) = none
  | [], r, hph => by
    simp [getNamed, phraseCells, frases_a_remover] at hph
  | _ :: _, [], hph => by
    simp [getNamed, phraseCells, frases_a_remover] at hph
  | c' :: cs, x :: xs, hph => by
    by_cases h : c' = v
    · subst h
      have hx : x ∈ phraseCells := by
        simpa only [getNamed, if_pos rfl] using hph
      simp only [mapNamed, getNamed, hvp, if_true, if_pos rfl]
      rw [if_pos hx]
    · have hph' : getNamed v cs xs ∈ phraseCells := by
        simpa only [getNamed, if_neg h] using hph
      simp only [mapNamed, getNamed, if_neg h]
      exact getNamed_replace_of_phrase hvp cs xs hph'

/-- C9: when the input row at position `i` holds one of the three
boilerplate phrases in a rank column, that cell of the normalized table is
a missing value (`NaN`) — the phrase was replaced before the reshape — and
consequently the melted row of that (respondent, rank) pair is not among
the rows of the Long-Format Table: the choice contributes no row. -/
theorem c9_boilerplate_replaced (df raw long : Table)
    (h : process_data df = Except.ok (raw, long)) (hal : df.Aligned)
    (v : String) (hv : v ∈ valueVars) (i : ℕ) (hi : i < df.rows.length)
    (hph : getNamed v df.rename.cols (df.rows.getD i []) ∈ phraseCells) :
    getNamed v raw.cols (raw.rows.getD i []) = none ∧
    meltRow raw.cols v (raw.rows.getD i []) ∉ long.rows := by
  obtain ⟨hm, hraw, hlong⟩ := process_data_ok h
  have hvp : decide (v ∈ valueVars) = true := by simpa using hv
  have hvne : decide (v = "Ano Matrícula") = false := by
    fin_cases hv <;> rfl
  have hvmem : v ∈ df.rename.cols := by
    by_contra hne
    have hin : v ∈ missingCols df.rename := by
      simp only [missingCols, List.mem_filter, decide_eq_true_eq]
      refine ⟨?_, hne⟩
      fin_cases hv <;> decide
    rw [hm] at hin
    exact absurd hin (List.not_mem_nil _)
  have hi1 : i < (replaceFrases df.rename).rows.length := by
    simpa [replaceFrases, Table.rename] using hi
  have hr1 : (replaceFrases df.rename).rows.getD i [] =
      mapNamed (fun c => decide (c ∈ valueVars))
        (fun x => if x ∈ phraseCells then none else x)
        df.rename.cols (df.rows.getD i []) := by
    show ((df.rows.map _).getD i []) = _
    rw [List.getD_eq_getElem _ _ (by simpa using hi), List.getElem_map,
      List.getD_eq_getElem _ _ hi]
  have h1 : getNamed v (replaceFrases df.rename).cols
      ((replaceFrases df.rename).rows.getD i []) = none := by
    rw [hr1]
    exact getNamed_replace_of_phrase hvp df.rename.cols (df.rows.getD i []) hph
  have halg1 : ((replaceFrases df.rename).rows.getD i []).length =
      (replaceFrases df.rename).cols.length := by
    rw [hr1, length_mapNamed]
    have hmem : df.rows.getD i [] ∈ df.rows := by
      rw [List.getD_eq_getElem _ _ hi]
      exact List.getElem_mem hi
    simpa [replaceFrases, Table.rename] using hal _ hmem
  subst hraw
  have hget : getNamed v (addAno (replaceFrases df.rename)).cols
      ((addAno (replaceFrases df.rename)).rows.getD i []) = none := by
    by_cases hano : "Ano Matrícula" ∈ (replaceFrases df.rename).cols
    · have hrows : (addAno (replaceFrases df.rename)).rows.getD i [] =
          mapNamed (fun c => decide (c = "Ano Matrícula"))
            (fun _ => anoCell (replaceFrases df.rename).cols
              ((replaceFrases df.rename).rows.getD i []))
            (replaceFrases df.rename).cols
            ((replaceFrases df.rename).rows.getD i []) := by
        simp only [addAno, if_pos hano]
        rw [List.getD_eq_getElem _ _ (by simpa using hi1), List.getElem_map,
          List.getD_eq_getElem _ _ hi1]
      have hcols : (addAno (replaceFrases df.rename)).cols =
          (replaceFrases df.rename).cols := by
        simp only [addAno, if_pos hano]
      rw [hcols, hrows, getNamed_mapNamed_not _ hvne]
      exact h1
    · have hrows : (addAno (replaceFrases df.rename)).rows.getD i [] =
          ((replaceFrases df.rename).rows.getD i []) ++
            [anoCell (replaceFrases df.rename).cols
              ((replaceFrases df.rename).rows.getD i [])] := by
        simp only [addAno, if_neg hano]
        rw [List.getD_eq_getElem _ _ (by simpa using hi1), List.getElem_map,
          List.getD_eq_getElem _ _ hi1]
      have hcols : (addAno (replaceFrases df.rename)).cols =
          (replaceFrases df.rename).cols ++ ["Ano Matrícula"] := by
        simp only [addAno, if_neg hano]
      rw [hcols, hrows, getNamed_append_of_mem _ _ _ _ halg1 hvmem]
      exact h1
  refine ⟨hget, ?_⟩
  subst hlong
  intro hmem
  simp only [dropnaCol, melt, List.mem_filter] at hmem
  have h2 := hmem.2
  rw [getNamed_disciplina_meltRow, hget] at h2
  simp at h2

/-- C9 witness: the second respondent of `dfW` typed the rank-2
boilerplate phrase; in the normalized table that cell is missing and the
corresponding melted row is absent from the long table. -/
theorem c9_boilerplate_replaced_witness :
    getNamed "Prioridade 2" (procRaw dfW).cols ((procRaw dfW).rows.getD 1 []) =
      none ∧
    meltRow (procRaw dfW).cols "Prioridade 2" ((procRaw dfW).rows.getD 1 []) ∉
      (procLong dfW).rows :=
  c9_boilerplate_replaced dfW (procRaw dfW) (procLong dfW) (by rfl)
    (by decide) "Prioridade 2" (by decide) 1 (by decide) (by decide)

/-- C10: after processing, every row of the normalized table carries a
non-missing numeric `Ano Matrícula` equal to the first four characters of
the enrollment id coerced to a number (0 when not parseable), and the
value 0 is excluded from the year filter options and from the per-year
demand table. -/
theorem c10_ano_matricula (df raw long : Table)
    (h : process_data df = Except.ok (raw, long)) (hal : df.Aligned) :
    "Ano Matrícula" ∈ raw.cols ∧
    (∀ r ∈ raw.rows, getNamed "Ano Matrícula" raw.cols r =
      some (Val.num (anoOfCell (getNamed "Matricula" raw.cols r)))) ∧
    Val.num 0 ∉ anos_matricula_disponiveis raw ∧
    (∀ dt : Table, Val.num 0 ∉ (demanda_por_ano dt).map Prod.fst) := by
  obtain ⟨hm, hraw, -⟩ := process_data_ok h
  have hmat : "Matricula" ∈ (replaceFrases df.rename).cols := by
    by_contra hne
    have hin : "Matricula" ∈ missingCols df.rename := by
      simp only [missingCols, List.mem_filter, decide_eq_true_eq]
      exact ⟨by decide, hne⟩
    rw [hm] at hin
    exact absurd hin (List.not_mem_nil _)
  have halign : ∀ r ∈ (replaceFrases df.rename).rows,
      r.length = (replaceFrases df.rename).cols.length := by
    intro r hr
    simp only [replaceFrases, List.mem_map] at hr
    obtain ⟨r0, hr0, rfl⟩ := hr
    rw [length_mapNamed]
    simp only [replaceFrases, Table.rename, List.length_map]
    exact hal r0 hr0
  subst hraw
  refine ⟨?_, ?_, ?_, ?_⟩
  · by_cases hano : "Ano Matrícula" ∈ (replaceFrases df.rename).cols
    · simp only [addAno, if_pos hano]; exact hano
    · simp only [addAno, if_neg hano]; simp
  · intro r hr
    by_cases hano : "Ano Matrícula" ∈ (replaceFrases df.rename).cols
    · simp only [addAno, if_pos hano, List.mem_map] at hr
      obtain ⟨r1, hr1, rfl⟩ := hr
      simp only [addAno, if_pos hano]
      rw [getNamed_set_aligned _ _ _ (halign r1 hr1) hano,
        getNamed_mapNamed_not _
          (by decide : decide ("Matricula" = "Ano Matrícula") = false)]
      rfl
    · simp only [addAno, if_neg hano, List.mem_map] at hr
      obtain ⟨r1, hr1, rfl⟩ := hr
      simp only [addAno, if_neg hano]
      rw [getNamed_append_of_not_mem _ _ _ _ (halign r1 hr1) hano,
        getNamed_append_of_mem _ _ _ _ (halign r1 hr1) hmat]
      simp [getNamed, anoCell]
  · intro hmem
    simp only [anos_matricula_disponiveis, List.mem_filter] at hmem
    exact absurd hmem.2 (by simp [vNe0])
  · intro dt hmem
    simp only [List.mem_map] at hmem
    obtain ⟨pr, hpr, hpr1⟩ := hmem
    rw [demanda_por_ano, List.mem_filter] at hpr
    rw [hpr1] at hpr
    exact absurd hpr.2 (by simp [vNe0])

/-- C10 witness: the invalid year 0 is absent from the year options of
the processed concrete table. -/
theorem c10_ano_matricula_witness :
    Val.num 0 ∉ anos_matricula_disponiveis (procRaw dfW) :=
  (c10_ano_matricula dfW (procRaw dfW) (procLong dfW) (by rfl)
    (by decide)).2.2.1

end SurveyBI
